import Mathlib

/-!
Shallow embedding of the 4tronix RUB MakeCode extension (src/rub.ts).

Modelling conventions:
* MakeCode/JavaScript numbers are modelled as rationals (the values that
  occur here are small and exactly representable).
* Hardware effects (servo pin writes, servo pulse writes, timed pauses and
  LED pushes) are modelled as an event trace returned next to the state.
* The module-level mutable variables of the rub namespace form one record,
  RubState; every exported block is a function from a state (plus its
  arguments) to a new state and a trace.
* The cooperative busy-wait loops (while svMoving pause 5) never terminate
  in the single-threaded semantics once svMoving is true, because nothing
  else can clear the flag; an operation that would spin forever is modelled
  as returning none.
* The fireled library is not part of src/; its Band operations are modelled
  from the spec where indicated.
-/

namespace rub

/-- LED update mode (src/rub.ts, enum ledMode). -/
inductive ledMode where
  | Manual
  | Auto
deriving DecidableEq

/-- Servo motion speed (src/rub.ts, enum servoSpeed). -/
inductive servoSpeed where
  | VerySlow
  | Slow
  | Medium
  | Fast
  | VeryFast
deriving DecidableEq

/-- Modelled from the spec: the state of a fireled Band.  The fireled
library itself is missing from src/; per the spec's LightBand data model a
band holds an ordered pixel buffer of packed 24-bit RGB colours whose
length is fixed at construction, and a brightness level. -/
structure Band where
  pixelColors : List ℤ
  brightness : ℚ
deriving DecidableEq

/-- Modelled from the spec: setBand overwrites every element of the pixel
buffer with the given colour. -/
def Band.setBand (b : Band) (rgb : ℤ) : Band :=
  { b with pixelColors := b.pixelColors.map (fun _ => rgb) }

/-- Modelled from the spec: clearBand overwrites every element of the pixel
buffer with the zero colour. -/
def Band.clearBand (b : Band) : Band :=
  { b with pixelColors := b.pixelColors.map (fun _ => 0) }

/-- Modelled from the spec: setPixel overwrites one element of the pixel
buffer; an out-of-range index leaves the buffer unchanged (the original
surface applies no visible bounds check, so the buffer length is never
altered). -/
def Band.setPixel (b : Band) (ledId : ℕ) (rgb : ℤ) : Band :=
  { b with pixelColors := b.pixelColors.set ledId rgb }

/-- Modelled from the spec: a deterministic hue wheel at full saturation
and value, packing r, g, b into one 24-bit colour.  The concrete hue
function of the fireled library is not in src/, so a standard 60-degree
sector interpolation is used. -/
def hueWheel (h : ℕ) : ℤ :=
  let hm := h % 360
  let f : ℤ := ((hm % 60) * 255) / 60
  if hm < 60 then (255 * 65536 + f * 256)
  else if hm < 120 then ((255 - f) * 65536 + 255 * 256)
  else if hm < 180 then (255 * 256 + f)
  else if hm < 240 then ((255 - f) * 256 + 255)
  else if hm < 300 then (f * 65536 + 255)
  else (255 * 65536 + (255 - f))

/-- Modelled from the spec: setRainbow fills the pixel buffer with a
deterministic hue gradient, one full hue rotation across the band. -/
def Band.setRainbow (b : Band) : Band :=
  let n := b.pixelColors.length
  { b with pixelColors := (List.range n).map (fun i => hueWheel (i * 360 / n)) }

/-- Modelled from the spec: shiftBand shifts all elements one position
toward index 0, filling the vacated end with the zero colour. -/
def Band.shiftBand (b : Band) : Band :=
  { b with pixelColors :=
      if b.pixelColors.isEmpty then [] else b.pixelColors.tail ++ [0] }

/-- Modelled from the spec: rotateBand shifts all elements one position
toward index 0 with wraparound, losing no data. -/
def Band.rotateBand (b : Band) : Band :=
  { b with pixelColors :=
      match b.pixelColors with
      | [] => []
      | c :: rest => rest ++ [c] }

/-- Modelled from the spec: setBrightness clamps the level to 0..255 and
stores it; the buffer contents are not recomputed. -/
def Band.setBrightness (b : Band) (level : ℚ) : Band :=
  { b with brightness := max (min 255 level) 0 }

/-- Modelled from the spec: newBand builds a band of the requested number
of pixels, all at the zero colour. -/
def newBand (n : ℕ) : Band :=
  { pixelColors := List.replicate n 0, brightness := 40 }

/-- One observable hardware effect. -/
inductive Event where
  | servoWrite (degrees : ℚ)
  | servoPulse (pulse : ℚ)
  | pause (ms : ℚ)
  | ledPush (pixels : List ℤ) (brightness : ℚ)
deriving DecidableEq

/-- True on an LED push event (a hardware transmission to the band). -/
def Event.isPush : Event → Bool
  | Event.ledPush _ _ => true
  | _ => false

/-- True on a stepped-interpolation pulse write. -/
def Event.isPulse : Event → Bool
  | Event.servoPulse _ => true
  | _ => false

/-- The module-level mutable variables of the rub namespace
(src/rub.ts, the let-declarations at the top of namespace rub). -/
structure RubState where
  updateMode : ledMode
  btEnabled : Bool
  svClosed : ℚ
  svOpen : ℚ
  svSwitched : ℚ
  svMoving : Bool
  svPos : ℚ
  band : Option Band
deriving DecidableEq

/-- The number of FireLeds (src/rub.ts, let ledCount = 4). -/
def ledCount : ℕ := 4

/-- The initial values of the module variables (src/rub.ts):
updateMode Auto, btEnabled false, presets 70/90/150, not moving,
svPos -1 (unknown), no band constructed yet. -/
def initState : RubState :=
  { updateMode := ledMode.Auto
    btEnabled := false
    svClosed := 70
    svOpen := 90
    svSwitched := 150
    svMoving := false
    svPos := -1
    band := none }

/-- A reachable state with a known servo position: the initial state after
one completed move to 90 degrees. -/
def knownPosState : RubState :=
  { initState with svPos := 90 }

/-- clamp from src/rub.ts: Math.max(Math.min(max, value), min). -/
def clamp (value min_ max_ : ℚ) : ℚ :=
  max (min max_ value) min_

/-- deg2ms from src/rub.ts: 500 + (degrees*1000)/90. -/
def deg2ms (degrees : ℚ) : ℚ :=
  500 + (degrees * 1000) / 90

/-- Modelled from the spec: the scale-divisor-parameterized PulseEncoder.
src/ contains only this variant's divisor-90 instance (deg2ms); the
parameterized form, covering the other product variant, follows the spec's
formula 500 + angleDegrees * 1000 / scaleDivisor. -/
def encode (angleDegrees scaleDivisor : ℚ) : ℚ :=
  500 + angleDegrees * 1000 / scaleDivisor

/-- setServoPresets from src/rub.ts: clamps each preset to 0..180 and
stores it; no other state is touched. -/
def setServoPresets (s : RubState) (closed open_ switched : ℚ) : RubState :=
  { s with
    svClosed := clamp closed 0 180
    svOpen := clamp open_ 0 180
    svSwitched := clamp switched 0 180 }

/-- setServo from src/rub.ts: clamp the angle to the closed..switched
range, busy-wait while svMoving (modelled as none, since in the
single-threaded semantics the wait would never end), write the servo pin
and record the new position. -/
def setServo (s : RubState) (degrees : ℚ) : Option (RubState × List Event) :=
  let d := clamp degrees s.svClosed s.svSwitched
  if s.svMoving then none
  else some ({ s with svPos := d }, [Event.servoWrite d])

/-- The step size chosen by the switch statement inside moveServo
(src/rub.ts): Fast takes 5, Medium takes 2, every other case keeps the
initial value 1 (Slow explicitly; VerySlow by falling through; VeryFast
never reaches the switch). -/
def stepOf : servoSpeed → ℚ
  | servoSpeed.Fast => 5
  | servoSpeed.Medium => 2
  | _ => 1

/-- The inter-step delay chosen by the switch statement inside moveServo
(src/rub.ts): Slow takes 3, every other case keeps the initial value 1
(VerySlow by falling through; VeryFast never reaches the switch). -/
def delayOf : servoSpeed → ℚ
  | servoSpeed.Slow => 3
  | _ => 1

/-- The downward for-loop of moveServo (src/rub.ts):
for (pos = start; pos > target; pos -= step), collecting the pulse values
written.  At every call site 0 < step; the guard makes the recursion
well-founded. -/
def stepLoopDown (target step : ℚ) (start : ℚ) : List ℚ :=
  if h : 0 < step ∧ target < start then
    start :: stepLoopDown target step (start - step)
  else
    []
termination_by (⌈(start - target) / step⌉).toNat
decreasing_by
  obtain ⟨hs, hlt⟩ := h
  have hx : (0 : ℚ) < (start - target) / step := div_pos (by linarith) hs
  have hc : 0 < ⌈(start - target) / step⌉ := Int.ceil_pos.mpr hx
  have he : (start - step - target) / step = (start - target) / step - 1 := by
    have h1 : start - step - target = (start - target) - step := by ring
    rw [h1, sub_div, div_self (ne_of_gt hs)]
  rw [he, Int.ceil_sub_one]
  omega

/-- The upward for-loop of moveServo (src/rub.ts):
for (pos = start; pos < target; pos += step), collecting the pulse values
written. -/
def stepLoopUp (target step : ℚ) (start : ℚ) : List ℚ :=
  if h : 0 < step ∧ start < target then
    start :: stepLoopUp target step (start + step)
  else
    []
termination_by (⌈(target - start) / step⌉).toNat
decreasing_by
  obtain ⟨hs, hlt⟩ := h
  have hx : (0 : ℚ) < (target - start) / step := div_pos (by linarith) hs
  have hc : 0 < ⌈(target - start) / step⌉ := Int.ceil_pos.mpr hx
  have he : (target - (start + step)) / step = (target - start) / step - 1 := by
    have h1 : target - (start + step) = (target - start) - step := by ring
    rw [h1, sub_div, div_self (ne_of_gt hs)]
  rw [he, Int.ceil_sub_one]
  omega

/-- moveServo from src/rub.ts: clamp the angle; if svPos is the unknown
sentinel -1 override the speed to VeryFast; the VeryFast path delegates to
setServo; otherwise busy-wait (none while svMoving), pick step and delay
from the switch, run the directional stepped loop writing a pulse and then
pausing delay on each iteration, clear svMoving, and finally record the
clamped target as the position (line svPos = degrees runs on both
paths). -/
def moveServo (s : RubState) (degrees : ℚ) (speed : servoSpeed) :
    Option (RubState × List Event) :=
  let d := clamp degrees s.svClosed s.svSwitched
  let sp := if s.svPos = -1 then servoSpeed.VeryFast else speed
  if sp = servoSpeed.VeryFast then
    (setServo s d).map (fun r => ({ r.1 with svPos := d }, r.2))
  else if s.svMoving then none
  else
    let step := stepOf sp
    let delay := delayOf sp
    let pulses :=
      if d < s.svPos then stepLoopDown (deg2ms d) step (deg2ms s.svPos)
      else stepLoopUp (deg2ms d) step (deg2ms s.svPos)
    some ({ s with svMoving := false, svPos := d },
      pulses.flatMap (fun p => [Event.servoPulse p, Event.pause delay]))

/-- waitServo from src/rub.ts: busy-waits while svMoving; the declared
numeric parameter servo is never read.  Modelled as none while svMoving
(the single-threaded wait would never end), otherwise no effect. -/
def waitServo (s : RubState) (servo : ℚ) : Option (RubState × List Event) :=
  if s.svMoving then none else some (s, [])

/-- fire from src/rub.ts: lazily construct the band on first use
(fireled.newBand(ledPin, ledCount) followed by setBrightness(40)) and
return it. -/
def fire (s : RubState) : Band × RubState :=
  match s.band with
  | some b => (b, s)
  | none =>
    let b := (newBand ledCount).setBrightness 40
    (b, { s with band := some b })

/-- ledShow from src/rub.ts: if Bluetooth is not enabled, push the band to
hardware (fire().updateBand()); otherwise do nothing at all (fire is not
even called). -/
def ledShow (s : RubState) : RubState × List Event :=
  if s.btEnabled then (s, [])
  else
    let r := fire s
    (r.2, [Event.ledPush r.1.pixelColors r.1.brightness])

/-- updateLEDs from src/rub.ts: push via ledShow exactly when updateMode is
Auto. -/
def updateLEDs (s : RubState) : RubState × List Event :=
  if s.updateMode = ledMode.Auto then ledShow s else (s, [])

/-- setLedColor from src/rub.ts: fire().setBand(rgb) then updateLEDs(). -/
def setLedColor (s : RubState) (rgb : ℤ) : RubState × List Event :=
  let r := fire s
  updateLEDs { r.2 with band := some (r.1.setBand rgb) }

/-- ledClear from src/rub.ts: fire().clearBand() then updateLEDs(). -/
def ledClear (s : RubState) : RubState × List Event :=
  let r := fire s
  updateLEDs { r.2 with band := some r.1.clearBand }

/-- setPixelColor from src/rub.ts: fire().setPixel(ledId, rgb) then
updateLEDs(). -/
def setPixelColor (s : RubState) (ledId : ℕ) (rgb : ℤ) : RubState × List Event :=
  let r := fire s
  updateLEDs { r.2 with band := some (r.1.setPixel ledId rgb) }

/-- ledRainbow from src/rub.ts: fire().setRainbow() then updateLEDs(). -/
def ledRainbow (s : RubState) : RubState × List Event :=
  let r := fire s
  updateLEDs { r.2 with band := some r.1.setRainbow }

/-- ledShift from src/rub.ts: fire().shiftBand() then updateLEDs(). -/
def ledShift (s : RubState) : RubState × List Event :=
  let r := fire s
  updateLEDs { r.2 with band := some r.1.shiftBand }

/-- ledRotate from src/rub.ts: fire().rotateBand() then updateLEDs(). -/
def ledRotate (s : RubState) : RubState × List Event :=
  let r := fire s
  updateLEDs { r.2 with band := some r.1.rotateBand }

/-- enableBluetooth from src/rub.ts: store the flag. -/
def enableBluetooth (s : RubState) (enable : Bool) : RubState :=
  { s with btEnabled := enable }

/-- ledBrightness from src/rub.ts: fire().setBrightness(brightness) then
updateLEDs(). -/
def ledBrightness (s : RubState) (brightness : ℚ) : RubState × List Event :=
  let r := fire s
  updateLEDs { r.2 with band := some (r.1.setBrightness brightness) }

/-- setUpdateMode from src/rub.ts: store the mode. -/
def setUpdateMode (s : RubState) (mode : ledMode) : RubState :=
  { s with updateMode := mode }

/-- Clamping twice with the same bounds is the same as clamping once. -/
lemma clamp_idem (v lo hi : ℚ) : clamp (clamp v lo hi) lo hi = clamp v lo hi := by
  unfold clamp
  rcases le_total v lo with h1 | h1 <;> rcases le_total v hi with h2 | h2 <;>
    rcases le_total lo hi with h3 | h3 <;>
    simp [min_def, max_def] <;> split_ifs <;> linarith

/-- With inverted bounds (hi below lo) the clamp is constantly lo. -/
lemma clamp_const_of_le (v lo hi : ℚ) (h : hi ≤ lo) : clamp v lo hi = lo := by
  unfold clamp
  have h1 : min hi v ≤ lo := le_trans (min_le_left _ _) h
  exact max_eq_right h1

/-- Every speed tier's step is positive. -/
lemma stepOf_pos (sp : servoSpeed) : 0 < stepOf sp := by
  cases sp <;> norm_num [stepOf]

/-- Closed form of the downward pulse loop: with a positive step it writes
exactly ceil((start - target)/step) pulses, the k-th being start - k*step. -/
lemma stepLoopDown_eq (pt step : ℚ) (hs : 0 < step) (p0 : ℚ) :
    stepLoopDown pt step p0 =
      (List.range ((⌈(p0 - pt) / step⌉).toNat)).map
        (fun k : ℕ => p0 - (k : ℚ) * step) := by
  generalize hn : (⌈(p0 - pt) / step⌉).toNat = n
  induction n generalizing p0 with
  | zero =>
    have hnp : ¬ pt < p0 := by
      intro hlt
      have hx : (0 : ℚ) < (p0 - pt) / step := div_pos (by linarith) hs
      have hc : 0 < ⌈(p0 - pt) / step⌉ := Int.ceil_pos.mpr hx
      omega
    rw [stepLoopDown]
    simp [hnp]
  | succ n ih =>
    have hc : ⌈(p0 - pt) / step⌉ = (n : ℤ) + 1 := by omega
    have hx : (0 : ℚ) < (p0 - pt) / step := by
      by_contra hx
      push_neg at hx
      have h0 : ⌈(p0 - pt) / step⌉ ≤ 0 := by
        have := Int.ceil_le_ceil (α := ℚ) hx
        simpa using this
      omega
    have hlt : pt < p0 := by
      rcases div_pos_iff.mp hx with ⟨h1, _⟩ | ⟨_, h2⟩
      · linarith
      · linarith
    rw [stepLoopDown, dif_pos ⟨hs, hlt⟩]
    have hn' : (⌈(p0 - step - pt) / step⌉).toNat = n := by
      have h1 : p0 - step - pt = (p0 - pt) - step := by ring
      have h2 : ((p0 - pt) - step) / step = (p0 - pt) / step - 1 := by
        rw [sub_div, div_self (ne_of_gt hs)]
      rw [h1, h2, Int.ceil_sub_one, hc]
      omega
    rw [ih (p0 - step) hn', List.range_succ_eq_map]
    simp only [List.map_cons, List.map_map, Nat.cast_zero, zero_mul, sub_zero]
    refine congrArg (List.cons p0) (List.map_congr_left (fun k _ => ?_))
    simp only [Function.comp_apply, Nat.succ_eq_add_one]
    push_cast
    ring

/-- Closed form of the upward pulse loop: with a positive step it writes
exactly ceil((target - start)/step) pulses, the k-th being start + k*step. -/
lemma stepLoopUp_eq (pt step : ℚ) (hs : 0 < step) (p0 : ℚ) :
    stepLoopUp pt step p0 =
      (List.range ((⌈(pt - p0) / step⌉).toNat)).map
        (fun k : ℕ => p0 + (k : ℚ) * step) := by
  generalize hn : (⌈(pt - p0) / step⌉).toNat = n
  induction n generalizing p0 with
  | zero =>
    have hnp : ¬ p0 < pt := by
      intro hlt
      have hx : (0 : ℚ) < (pt - p0) / step := div_pos (by linarith) hs
      have hc : 0 < ⌈(pt - p0) / step⌉ := Int.ceil_pos.mpr hx
      omega
    rw [stepLoopUp]
    simp [hnp]
  | succ n ih =>
    have hc : ⌈(pt - p0) / step⌉ = (n : ℤ) + 1 := by omega
    have hx : (0 : ℚ) < (pt - p0) / step := by
      by_contra hx
      push_neg at hx
      have h0 : ⌈(pt - p0) / step⌉ ≤ 0 := by
        have := Int.ceil_le_ceil (α := ℚ) hx
        simpa using this
      omega
    have hlt : p0 < pt := by
      rcases div_pos_iff.mp hx with ⟨h1, _⟩ | ⟨_, h2⟩
      · linarith
      · linarith
    rw [stepLoopUp, dif_pos ⟨hs, hlt⟩]
    have hn' : (⌈(pt - (p0 + step)) / step⌉).toNat = n := by
      have h1 : pt - (p0 + step) = (pt - p0) - step := by ring
      have h2 : ((pt - p0) - step) / step = (pt - p0) / step - 1 := by
        rw [sub_div, div_self (ne_of_gt hs)]
      rw [h1, h2, Int.ceil_sub_one, hc]
      omega
    rw [ih (p0 + step) hn', List.range_succ_eq_map]
    simp only [List.map_cons, List.map_map, Nat.cast_zero, zero_mul, add_zero]
    refine congrArg (List.cons p0) (List.map_congr_left (fun k _ => ?_))
    simp only [Function.comp_apply, Nat.succ_eq_add_one]
    push_cast
    ring

/-- After ceil(x/step) whole steps, at least x has been covered. -/
lemma ceil_steps_le (x step : ℚ) (hs : 0 < step) :
    x ≤ ((⌈x / step⌉).toNat : ℚ) * step := by
  have h1 : x / step ≤ ((⌈x / step⌉).toNat : ℚ) := by
    calc x / step ≤ (⌈x / step⌉ : ℚ) := Int.le_ceil _
    _ ≤ ((⌈x / step⌉).toNat : ℚ) := by exact_mod_cast Int.self_le_toNat _
  calc x = x / step * step := by field_simp
  _ ≤ ((⌈x / step⌉).toNat : ℚ) * step :=
      mul_le_mul_of_nonneg_right h1 (le_of_lt hs)

/-- Before the last of ceil(x/step) whole steps, x is not yet covered. -/
lemma lt_ceil_steps (x step : ℚ) (hs : 0 < step) (k : ℕ)
    (hk : k < (⌈x / step⌉).toNat) : (k : ℚ) * step < x := by
  have h1 : (k : ℤ) + 1 ≤ ⌈x / step⌉ := by omega
  have h2 : ((k : ℚ) + 1) ≤ (⌈x / step⌉ : ℚ) := by exact_mod_cast h1
  have h3 : (⌈x / step⌉ : ℚ) < x / step + 1 := Int.ceil_lt_add_one _
  have h4 : (k : ℚ) < x / step := by linarith
  exact (lt_div_iff₀ hs).mp h4

/-- The stepped (non-fastest, known-position, idle) path of moveServo,
unfolded: it returns the state with the clamped target recorded and the
busy flag clear, next to the trace of the directional pulse loop. -/
lemma moveServo_stepped (s : RubState) (dIn : ℚ) (sp : servoSpeed)
    (hm : s.svMoving = false) (hk : s.svPos ≠ -1) (hf : sp ≠ servoSpeed.VeryFast) :
    moveServo s dIn sp =
      some ({ s with svMoving := false, svPos := clamp dIn s.svClosed s.svSwitched },
        ((if clamp dIn s.svClosed s.svSwitched < s.svPos then
            stepLoopDown (deg2ms (clamp dIn s.svClosed s.svSwitched)) (stepOf sp)
              (deg2ms s.svPos)
          else
            stepLoopUp (deg2ms (clamp dIn s.svClosed s.svSwitched)) (stepOf sp)
              (deg2ms s.svPos))).flatMap
          (fun p => [Event.servoPulse p, Event.pause (delayOf sp)])) := by
  unfold moveServo
  simp [hk, hf, hm]

/-- fire leaves everything but the band untouched, and afterwards the band
field holds the returned band. -/
lemma fire_fields (s : RubState) :
    (fire s).2.updateMode = s.updateMode ∧ (fire s).2.btEnabled = s.btEnabled ∧
    (fire s).2.band = some (fire s).1 := by
  cases hb : s.band <;> simp [fire, hb]

/-- Core of the auto-push gate, shared by the mutating LED operations: the
mutated band is stored; Manual mode emits nothing; Auto mode pushes the
mutated band unless Bluetooth contention suppresses it; Bluetooth
contention always silences the trace; and an explicit ledShow afterwards
pushes the mutated band when no contention holds. -/
lemma gate_core (s : RubState) (b' : Band) :
    (updateLEDs { (fire s).2 with band := some b' }).1.band = some b' ∧
    (s.updateMode = ledMode.Manual →
      (updateLEDs { (fire s).2 with band := some b' }).2 = []) ∧
    (s.updateMode = ledMode.Auto → s.btEnabled = false →
      (updateLEDs { (fire s).2 with band := some b' }).2 =
        [Event.ledPush b'.pixelColors b'.brightness]) ∧
    (s.btEnabled = true →
      (updateLEDs { (fire s).2 with band := some b' }).2 = []) ∧
    (s.btEnabled = false →
      (ledShow (updateLEDs { (fire s).2 with band := some b' }).1).2 =
        [Event.ledPush b'.pixelColors b'.brightness]) := by
  cases hb : s.band <;> cases hu : s.updateMode <;> cases hbt : s.btEnabled <;>
    simp [updateLEDs, ledShow, fire, hb, hu, hbt]

/-- C8: for all bounds lo ≤ hi, clamp returns lo below the range, hi above
the range, and the value itself inside the range. -/
theorem C8_clamp_spec (v lo hi : ℚ) (hlohi : lo ≤ hi) :
    (v < lo → clamp v lo hi = lo) ∧
    (hi < v → clamp v lo hi = hi) ∧
    (lo ≤ v → v ≤ hi → clamp v lo hi = v) := by
  unfold clamp
  refine ⟨fun h1 => ?_, fun h1 => ?_, fun h1 h2 => ?_⟩
  · rw [min_eq_right (le_trans (le_of_lt h1) hlohi), max_eq_right (le_of_lt h1)]
  · rw [min_eq_left (le_of_lt h1), max_eq_left hlohi]
  · rw [min_eq_right h2, max_eq_left h1]

/-- Witness for C8 at concrete bounds 0 ≤ 10. -/
theorem C8_clamp_spec_witness :
    (0 : ℚ) ≤ 10 ∧
    (((-5 : ℚ) < 0 → clamp (-5) 0 10 = 0) ∧
     ((10 : ℚ) < -5 → clamp (-5) 0 10 = 10) ∧
     ((0 : ℚ) ≤ -5 → (-5 : ℚ) ≤ 10 → clamp (-5) 0 10 = -5)) :=
  ⟨by decide, C8_clamp_spec (-5) 0 10 (by decide)⟩

/-- C9: waitServo's declared numeric parameter has no effect: on any state,
any two argument values give identical results. -/
theorem C9_waitServo_ignores_argument (s : RubState) (a b : ℚ) :
    waitServo s a = waitServo s b := rfl

/-- C10: with inverted bounds clamp is constantly the lower-bound argument,
so configuring the closed preset above the switched preset pins every
subsequent setServo to the stored closed preset. -/
theorem C10_inverted_presets_pin_to_closed (v lo hi : ℚ) (hhl : hi < lo)
    (s : RubState) (c o w d : ℚ) (hcw : w < c) (hm : s.svMoving = false) :
    clamp v lo hi = lo ∧
    (setServo (setServoPresets s c o w) d).map (fun r => r.1.svPos) =
      some (setServoPresets s c o w).svClosed := by
  refine ⟨clamp_const_of_le v lo hi (le_of_lt hhl), ?_⟩
  have hle : clamp w 0 180 ≤ clamp c 0 180 := by
    unfold clamp
    exact max_le_max (min_le_min le_rfl (le_of_lt hcw)) le_rfl
  simp [setServo, setServoPresets, hm, clamp_const_of_le _ _ _ hle]

/-- Witness for C10 on the initial state with presets 150/90/70. -/
theorem C10_inverted_presets_witness :
    ((3 : ℚ) < 10 ∧ (70 : ℚ) < 150 ∧ initState.svMoving = false) ∧
    (clamp 5 10 3 = 10 ∧
     (setServo (setServoPresets initState 150 90 70) 100).map
        (fun r => r.1.svPos) =
       some (setServoPresets initState 150 90 70).svClosed) := by
  refine ⟨⟨by decide, by decide, by decide⟩, ?_⟩
  exact C10_inverted_presets_pin_to_closed 5 10 3 (by decide) initState
    150 90 70 100 (by decide) (by decide)

/-- C7: the pulse encoder is 500 + degrees*1000/divisor; the source's
deg2ms is the divisor-90 instance; encode 0 d = 500 for positive d,
encode 180 90 = 2500 and encode 180 180 = 1500. -/
theorem C7_encode_spec (a dv : ℚ) (hdv : 0 < dv) :
    deg2ms a = encode a 90 ∧ encode 0 dv = 500 ∧
    encode 180 90 = 2500 ∧ encode 180 180 = 1500 := by
  refine ⟨rfl, ?_, by norm_num [encode], by norm_num [encode]⟩
  simp [encode]

/-- Witness for C7 at angle 60 and divisor 45. -/
theorem C7_encode_witness :
    (0 : ℚ) < 45 ∧
    (deg2ms 60 = encode 60 90 ∧ encode 0 45 = 500 ∧
     encode 180 90 = 2500 ∧ encode 180 180 = 1500) :=
  ⟨by decide, C7_encode_spec 60 45 (by decide)⟩

/-- C3 is violated by the code: VerySlow falls through the switch to the
implicit defaults step 1, delay 1, the same pair the baseline
initialization uses, and its delay is strictly smaller than Slow's, so the
slower-named tier actually moves faster. -/
theorem C3_veryslow_falls_through :
    stepOf servoSpeed.VerySlow = 1 ∧ delayOf servoSpeed.VerySlow = 1 ∧
    stepOf servoSpeed.Slow = 1 ∧ delayOf servoSpeed.Slow = 3 ∧
    delayOf servoSpeed.VerySlow < delayOf servoSpeed.Slow := by
  refine ⟨rfl, rfl, rfl, rfl, ?_⟩
  norm_num [delayOf]

/-- C1 fails as stated: with presets closed 70, open 20, switched 150 the
numerically lowest preset is 20 and the highest 150, so the claim predicts
setServo 30 ends at clamp 30 20 150 = 30, but the code clamps to the
closed..switched interval and ends at 70. -/
theorem C1_counterexample :
    (setServo (setServoPresets initState 70 20 150) 30).map
        (fun r => r.1.svPos) = some 70 ∧
    min (min 70 20) 150 = (20 : ℚ) ∧
    max (max 70 20) 150 = (150 : ℚ) ∧
    clamp 30 20 150 = 30 ∧ (70 : ℚ) ≠ 30 := by
  decide

/-- C1 (amended): setServo and moveServo clamp the requested angle to the
interval from the closed preset to the switched preset (not the numerical
lowest..highest preset span) and on completion record exactly that clamped
value; after setServoPresets 70 90 150, where closed is the lowest and
switched the highest preset, setServo 40 ends at 70 and setServo 200 at
150. -/
theorem C1_clamps_to_closed_switched (s : RubState) (d : ℚ) (sp : servoSpeed)
    (hm : s.svMoving = false) :
    (setServo s d).map (fun r => r.1.svPos) =
      some (clamp d s.svClosed s.svSwitched) ∧
    (∃ r ∈ moveServo s d sp,
        r.1.svPos = clamp d s.svClosed s.svSwitched ∧ r.1.svMoving = false) ∧
    (setServo (setServoPresets s 70 90 150) 40).map (fun r => r.1.svPos) =
      some 70 ∧
    (setServo (setServoPresets s 70 90 150) 200).map (fun r => r.1.svPos) =
      some 150 := by
  refine ⟨by simp [setServo, hm], ?_, ?_, ?_⟩
  · unfold moveServo setServo
    by_cases hp : s.svPos = -1
    · simp [hp, hm, clamp_idem]
    · by_cases hf : sp = servoSpeed.VeryFast
      · simp [hp, hf, hm, clamp_idem]
      · simp [hp, hf, hm]
  · have h1 : clamp 40 (clamp 70 0 180) (clamp 150 0 180) = 70 := by decide
    simp [setServo, setServoPresets, hm, h1]
  · have h2 : clamp 200 (clamp 70 0 180) (clamp 150 0 180) = 150 := by decide
    simp [setServo, setServoPresets, hm, h2]

/-- Witness for C1 (amended) on the initial idle state. -/
theorem C1_clamps_witness :
    initState.svMoving = false ∧
    ((setServo initState 40).map (fun r => r.1.svPos) =
      some (clamp 40 initState.svClosed initState.svSwitched) ∧
    (∃ r ∈ moveServo initState 40 servoSpeed.Medium,
        r.1.svPos = clamp 40 initState.svClosed initState.svSwitched ∧
        r.1.svMoving = false) ∧
    (setServo (setServoPresets initState 70 90 150) 40).map
        (fun r => r.1.svPos) = some 70 ∧
    (setServo (setServoPresets initState 70 90 150) 200).map
        (fun r => r.1.svPos) = some 150) :=
  ⟨by decide, C1_clamps_to_closed_switched initState 40 servoSpeed.Medium (by decide)⟩

/-- C2: while the current position is the unknown sentinel -1, moveServo
overrides any requested speed to VeryFast and takes the immediate setServo
path, writing no interpolation pulse. -/
theorem C2_first_move_is_immediate (s : RubState) (d : ℚ) (sp : servoSpeed)
    (h : s.svPos = -1) :
    moveServo s d sp = setServo s d ∧
    moveServo s d sp = moveServo s d servoSpeed.VeryFast ∧
    ∀ r ∈ moveServo s d sp, ∀ e ∈ r.2, e.isPulse = false := by
  have key : ∀ sp' : servoSpeed, moveServo s d sp' = setServo s d := by
    intro sp'
    unfold moveServo setServo
    cases hsm : s.svMoving <;> simp [h, hsm, clamp_idem]
  refine ⟨key sp, (key sp).trans (key servoSpeed.VeryFast).symm, ?_⟩
  intro r hr e he
  rw [key sp] at hr
  unfold setServo at hr
  cases hsm : s.svMoving <;> rw [hsm] at hr <;> simp at hr
  rw [← hr] at he
  simp at he
  rw [he]
  rfl

/-- Witness for C2 on the freshly constructed state. -/
theorem C2_first_move_witness :
    initState.svPos = -1 ∧
    (moveServo initState 40 servoSpeed.Slow = setServo initState 40 ∧
     moveServo initState 40 servoSpeed.Slow =
       moveServo initState 40 servoSpeed.VeryFast ∧
     ∀ r ∈ moveServo initState 40 servoSpeed.Slow, ∀ e ∈ r.2,
       e.isPulse = false) :=
  ⟨by decide, C2_first_move_is_immediate initState 40 servoSpeed.Slow (by decide)⟩

/-- C4: a stepped move (known position, idle, any non-VeryFast speed)
returns to Idle with the clamped target recorded exactly, and its trace is
the pulse ramp from encode(current) toward encode(target) in signed
increments of the tier's step with a pause of the tier's delay after each
write, every written pulse strictly short of the target pulse and the
first unwritten value at or past it. -/
theorem C4_stepped_move (s : RubState) (dIn : ℚ) (sp : servoSpeed)
    (hm : s.svMoving = false) (hk : s.svPos ≠ -1)
    (hf : sp ≠ servoSpeed.VeryFast) :
    ∃ n : ℕ,
      moveServo s dIn sp =
        some ({ s with svMoving := false,
                       svPos := clamp dIn s.svClosed s.svSwitched },
          ((List.range n).map (fun k : ℕ =>
              if clamp dIn s.svClosed s.svSwitched < s.svPos then
                deg2ms s.svPos - (k : ℚ) * stepOf sp
              else
                deg2ms s.svPos + (k : ℚ) * stepOf sp)).flatMap
            (fun p => [Event.servoPulse p, Event.pause (delayOf sp)])) ∧
      (∀ k, k < n →
        (if clamp dIn s.svClosed s.svSwitched < s.svPos then
          deg2ms (clamp dIn s.svClosed s.svSwitched) <
            deg2ms s.svPos - (k : ℚ) * stepOf sp
        else
          deg2ms s.svPos + (k : ℚ) * stepOf sp <
            deg2ms (clamp dIn s.svClosed s.svSwitched))) ∧
      (if clamp dIn s.svClosed s.svSwitched < s.svPos then
        deg2ms s.svPos - (n : ℚ) * stepOf sp ≤
          deg2ms (clamp dIn s.svClosed s.svSwitched)
      else
        deg2ms (clamp dIn s.svClosed s.svSwitched) ≤
          deg2ms s.svPos + (n : ℚ) * stepOf sp) := by
  have hs : 0 < stepOf sp := stepOf_pos sp
  by_cases hdir : clamp dIn s.svClosed s.svSwitched < s.svPos
  · refine ⟨(⌈(deg2ms s.svPos -
        deg2ms (clamp dIn s.svClosed s.svSwitched)) / stepOf sp⌉).toNat,
      ?_, ?_, ?_⟩
    · rw [moveServo_stepped s dIn sp hm hk hf, if_pos hdir,
        stepLoopDown_eq _ _ hs]
      simp only [if_pos hdir]
    · intro k hk2
      rw [if_pos hdir]
      have := lt_ceil_steps
        (deg2ms s.svPos - deg2ms (clamp dIn s.svClosed s.svSwitched))
        (stepOf sp) hs k hk2
      linarith
    · rw [if_pos hdir]
      have := ceil_steps_le
        (deg2ms s.svPos - deg2ms (clamp dIn s.svClosed s.svSwitched))
        (stepOf sp) hs
      linarith
  · refine ⟨(⌈(deg2ms (clamp dIn s.svClosed s.svSwitched) -
        deg2ms s.svPos) / stepOf sp⌉).toNat, ?_, ?_, ?_⟩
    · rw [moveServo_stepped s dIn sp hm hk hf, if_neg hdir,
        stepLoopUp_eq _ _ hs]
      simp only [if_neg hdir]
    · intro k hk2
      rw [if_neg hdir]
      have := lt_ceil_steps
        (deg2ms (clamp dIn s.svClosed s.svSwitched) - deg2ms s.svPos)
        (stepOf sp) hs k hk2
      linarith
    · rw [if_neg hdir]
      have := ceil_steps_le
        (deg2ms (clamp dIn s.svClosed s.svSwitched) - deg2ms s.svPos)
        (stepOf sp) hs
      linarith

/-- Witness for C4: a Medium-speed move from position 90 to 70. -/
theorem C4_stepped_move_witness :
    (knownPosState.svMoving = false ∧ knownPosState.svPos ≠ -1 ∧
     servoSpeed.Medium ≠ servoSpeed.VeryFast) ∧
    (∃ n : ℕ,
      moveServo knownPosState 70 servoSpeed.Medium =
        some ({ knownPosState with
                svMoving := false
                svPos := clamp 70 knownPosState.svClosed knownPosState.svSwitched },
          ((List.range n).map (fun k : ℕ =>
              if clamp 70 knownPosState.svClosed knownPosState.svSwitched <
                  knownPosState.svPos then
                deg2ms knownPosState.svPos - (k : ℚ) * stepOf servoSpeed.Medium
              else
                deg2ms knownPosState.svPos + (k : ℚ) * stepOf servoSpeed.Medium)).flatMap
            (fun p => [Event.servoPulse p,
                       Event.pause (delayOf servoSpeed.Medium)])) ∧
      (∀ k, k < n →
        (if clamp 70 knownPosState.svClosed knownPosState.svSwitched <
            knownPosState.svPos then
          deg2ms (clamp 70 knownPosState.svClosed knownPosState.svSwitched) <
            deg2ms knownPosState.svPos - (k : ℚ) * stepOf servoSpeed.Medium
        else
          deg2ms knownPosState.svPos + (k : ℚ) * stepOf servoSpeed.Medium <
            deg2ms (clamp 70 knownPosState.svClosed knownPosState.svSwitched))) ∧
      (if clamp 70 knownPosState.svClosed knownPosState.svSwitched <
          knownPosState.svPos then
        deg2ms knownPosState.svPos - (n : ℚ) * stepOf servoSpeed.Medium ≤
          deg2ms (clamp 70 knownPosState.svClosed knownPosState.svSwitched)
      else
        deg2ms (clamp 70 knownPosState.svClosed knownPosState.svSwitched) ≤
          deg2ms knownPosState.svPos + (n : ℚ) * stepOf servoSpeed.Medium)) :=
  ⟨⟨by decide, by decide, by decide⟩,
   C4_stepped_move knownPosState 70 servoSpeed.Medium
     (by decide) (by decide) (by decide)⟩

/-- C5: with Bluetooth contention enabled, ledShow is a complete no-op
whatever the update mode, and every buffer-mutating LED operation emits no
hardware event at all while still storing its mutation of the band. -/
theorem C5_conflict_suppresses_push (s : RubState) (rgb : ℤ) (i : ℕ)
    (hbt : s.btEnabled = true) :
    ledShow s = (s, []) ∧
    ∀ p ∈ [(setLedColor s rgb, Band.setBand (fire s).1 rgb),
           (ledClear s, Band.clearBand (fire s).1),
           (setPixelColor s i rgb, Band.setPixel (fire s).1 i rgb),
           (ledRainbow s, Band.setRainbow (fire s).1),
           (ledShift s, Band.shiftBand (fire s).1),
           (ledRotate s, Band.rotateBand (fire s).1)],
      p.1.2 = [] ∧ p.1.1.band = some p.2 := by
  refine ⟨by simp [ledShow, hbt], ?_⟩
  intro p hp
  simp only [List.mem_cons, List.not_mem_nil, or_false] at hp
  rcases hp with h|h|h|h|h|h <;> subst h <;>
    exact ⟨(gate_core s _).2.2.2.1 hbt, (gate_core s _).1⟩

/-- Witness for C5 with contention enabled on the initial state. -/
theorem C5_conflict_witness :
    ({ initState with btEnabled := true } : RubState).btEnabled = true ∧
    (ledShow { initState with btEnabled := true } =
        ({ initState with btEnabled := true }, []) ∧
     ∀ p ∈ [(setLedColor { initState with btEnabled := true } 255,
             Band.setBand (fire { initState with btEnabled := true }).1 255),
            (ledClear { initState with btEnabled := true },
             Band.clearBand (fire { initState with btEnabled := true }).1),
            (setPixelColor { initState with btEnabled := true } 2 255,
             Band.setPixel (fire { initState with btEnabled := true }).1 2 255),
            (ledRainbow { initState with btEnabled := true },
             Band.setRainbow (fire { initState with btEnabled := true }).1),
            (ledShift { initState with btEnabled := true },
             Band.shiftBand (fire { initState with btEnabled := true }).1),
            (ledRotate { initState with btEnabled := true },
             Band.rotateBand (fire { initState with btEnabled := true }).1)],
       p.1.2 = [] ∧ p.1.1.band = some p.2) :=
  ⟨by decide,
   C5_conflict_suppresses_push { initState with btEnabled := true } 255 2
     (by decide)⟩

/-- C6: each buffer-mutating LED operation stores its mutation
unconditionally; in Auto mode with no Bluetooth contention its trace is
exactly one push of the mutated band; in Manual mode its trace is empty,
and an explicit ledShow afterwards pushes the mutated band. -/
theorem C6_auto_push_gate (s : RubState) (rgb : ℤ) (i : ℕ) :
    ∀ p ∈ [(setLedColor s rgb, Band.setBand (fire s).1 rgb),
           (ledClear s, Band.clearBand (fire s).1),
           (setPixelColor s i rgb, Band.setPixel (fire s).1 i rgb),
           (ledRainbow s, Band.setRainbow (fire s).1),
           (ledShift s, Band.shiftBand (fire s).1),
           (ledRotate s, Band.rotateBand (fire s).1)],
      p.1.1.band = some p.2 ∧
      (s.updateMode = ledMode.Manual → p.1.2 = []) ∧
      (s.updateMode = ledMode.Auto → s.btEnabled = false →
        p.1.2 = [Event.ledPush p.2.pixelColors p.2.brightness]) ∧
      (s.btEnabled = false →
        (ledShow p.1.1).2 = [Event.ledPush p.2.pixelColors p.2.brightness]) := by
  intro p hp
  simp only [List.mem_cons, List.not_mem_nil, or_false] at hp
  rcases hp with h|h|h|h|h|h <;> subst h <;>
    exact ⟨(gate_core s _).1, (gate_core s _).2.1, (gate_core s _).2.2.1,
      (gate_core s _).2.2.2.2⟩

/-- Witness for C6 on the initial (Auto, no contention) state and the
setLedColor operation. -/
theorem C6_auto_push_witness :
    ((setLedColor initState 9, Band.setBand (fire initState).1 9) ∈
      [(setLedColor initState 9, Band.setBand (fire initState).1 9),
       (ledClear initState, Band.clearBand (fire initState).1),
       (setPixelColor initState 1 9, Band.setPixel (fire initState).1 1 9),
       (ledRainbow initState, Band.setRainbow (fire initState).1),
       (ledShift initState, Band.shiftBand (fire initState).1),
       (ledRotate initState, Band.rotateBand (fire initState).1)]) ∧
    ((setLedColor initState 9).1.band = some (Band.setBand (fire initState).1 9) ∧
     (initState.updateMode = ledMode.Manual → (setLedColor initState 9).2 = []) ∧
     (initState.updateMode = ledMode.Auto → initState.btEnabled = false →
       (setLedColor initState 9).2 =
         [Event.ledPush (Band.setBand (fire initState).1 9).pixelColors
            (Band.setBand (fire initState).1 9).brightness]) ∧
     (initState.btEnabled = false →
       (ledShow (setLedColor initState 9).1).2 =
         [Event.ledPush (Band.setBand (fire initState).1 9).pixelColors
            (Band.setBand (fire initState).1 9).brightness])) :=
  ⟨by decide,
   C6_auto_push_gate initState 9 1
     (setLedColor initState 9, Band.setBand (fire initState).1 9) (by decide)⟩

end rub
